import Mathlib

/-!
Shallow embedding of the cron/fcron checker scripts
(`src/cron_checker.py`, `src/fcron_checker.py`).

Text is modelled as `List Char`.  Python substring tests (`pat in s`,
`re.search` on a literal pattern) become `containsSub`, an executable
infix test.  The regex scans `CMD \((.*?)\)` and `EXIT STATUS \((\d+)\)`
become recursive scans mirroring the left-to-right search with lazy /
greedy submatching of the Python `re` engine.
-/

namespace CronCheckers

/-- Whitespace characters recognised by Python's `str.split()` (ASCII set). -/
def isSpace (c : Char) : Bool :=
  c = ' ' || c = '\t' || c = '\n' || c = '\r' || c = '\x0b' || c = '\x0c'

/-- Helper for `pySplit`: accumulates the current (reversed) token. -/
def splitWsAux : List Char → List Char → List (List Char)
  | [], [] => []
  | [], acc => [acc.reverse]
  | c :: cs, acc =>
    if isSpace c then
      if acc = [] then splitWsAux cs []
      else acc.reverse :: splitWsAux cs []
    else splitWsAux cs (c :: acc)

/-- Python `s.split()`: split on runs of whitespace, dropping empty tokens. -/
def pySplit (s : List Char) : List (List Char) :=
  splitWsAux s []

/-- Executable substring test: `containsSub pat s` is Python's `pat in s`. -/
def containsSub (pat : List Char) : List Char → Bool
  | [] => pat.isEmpty
  | c :: cs => pat.isPrefixOf (c :: cs) || containsSub pat cs

theorem containsSub_eq_true_iff (pat s : List Char) :
    containsSub pat s = true ↔ pat <:+: s := by
  induction s with
  | nil =>
    simp [containsSub, List.isEmpty_iff, List.infix_nil]
  | cons c cs ih =>
    simp [containsSub, List.isPrefixOf_iff_prefix, ih, List.infix_cons_iff]

/-- Status of a report entry (the `"status"` strings of the scripts). -/
inductive Status where
  | success : Status
  | missing : Status
  | failed : Status
deriving DecidableEq, Repr

/-- One result dictionary `{"job": ..., "status": ..., "message": ...}`. -/
structure ReportEntry where
  job : List Char
  status : Status
  message : List Char
deriving DecidableEq, Repr

/-- `CHECK_MINUTES = 10` (both scripts). -/
def CHECK_MINUTES : Nat := 10

/-- Scan of the lazy group in `re.search(r'CMD \((.*?)\)', e)`: collect the
characters up to the next `)`; `.` does not match a newline, and a missing
`)` makes this start position fail. -/
def lazyToParen : List Char → Option (List Char)
  | [] => none
  | c :: cs =>
    if c = ')' then some []
    else if c = '\n' then none
    else (lazyToParen cs).map (fun t => c :: t)

/-- `re.search(r'CMD \((.*?)\)', e)`: left-to-right scan for `CMD (`; on
success the captured group is the text up to the following `)`, otherwise
the engine resumes the scan one position later. -/
def extractCmd : List Char → Option (List Char)
  | [] => none
  | c :: cs =>
    if ("CMD (".toList).isPrefixOf (c :: cs) then
      match lazyToParen ((c :: cs).drop 5) with
      | some cap => some cap
      | none => extractCmd cs
    else extractCmd cs

/-- Greedy tail of `re.search(r'EXIT STATUS \((\d+)\)', e)`: a non-empty run
of digits followed immediately by `)`; returns the digit run. -/
def digitsThenParen (cs : List Char) : Option (List Char) :=
  let ds := cs.takeWhile (fun c => c.isDigit)
  if ds.isEmpty then none
  else if (cs.drop ds.length).head? = some ')' then some ds else none

/-- `re.search(r'EXIT STATUS \((\d+)\)', e)`: left-to-right scan for
`EXIT STATUS (` followed by digits and `)`; the captured group is the
digit string. -/
def extractExit : List Char → Option (List Char)
  | [] => none
  | c :: cs =>
    if ("EXIT STATUS (".toList).isPrefixOf (c :: cs) then
      match digitsThenParen ((c :: cs).drop 13) with
      | some ds => some ds
      | none => extractExit cs
    else extractExit cs

/-- `cron_checker.parse_logs`: keep lines matching
`re.search(r"(CRON|cron|fcron)", line)` (case-sensitive substring of any
alternative), in order. -/
def cronRelevant (l : List Char) : Bool :=
  containsSub ("CRON".toList) l || containsSub ("cron".toList) l ||
    containsSub ("fcron".toList) l

def parse_logs (logs : List (List Char)) : List (List Char) :=
  logs.filter cronRelevant

/-- `fcron_checker.parse_fcron_logs`: keep lines matching
`re.search(r"fcron", line, re.IGNORECASE)` (case-insensitive substring),
in order. -/
def fcronRelevant (l : List Char) : Bool :=
  containsSub ("fcron".toList) (l.map Char.toLower)

def parse_fcron_logs (logs : List (List Char)) : List (List Char) :=
  logs.filter fcronRelevant

/-- `" ".join(job.split()[5:])` of `cron_checker.main`. -/
def job_cmd (job : List Char) : List Char :=
  List.intercalate (" ".toList) ((pySplit job).drop 5)

/-- The synthetic entry appended by `cron_checker.main` when `jobs` is empty. -/
def noCrontabEntry : ReportEntry :=
  { job := "No user crontab".toList
    status := .missing
    message := "No crontab entries found or 'crontab' command missing.".toList }

/-- The per-declared-job entry of the `for job in jobs` loop of
`cron_checker.main`: success iff `job_cmd` occurs in some event line. -/
def perJobEntry (events : List (List Char)) (job : List Char) : ReportEntry :=
  let cmd := job_cmd job
  if events.any (fun e => containsSub cmd e) then
    { job := cmd
      status := .success
      message := ("Ran successfully in last " ++ toString CHECK_MINUTES ++
        " minutes.").toList }
  else
    { job := cmd
      status := .missing
      message := "Did **not run** (but scheduled).".toList }

/-- The failure test of `cron_checker.main`:
`"EXIT STATUS" in e and not re.search(r"EXIT STATUS \(0\)", e)`. -/
def cronFailCheck (e : List Char) : Bool :=
  containsSub ("EXIT STATUS".toList) e &&
    !containsSub ("EXIT STATUS (0)".toList) e

/-- The extra entry emitted for a failing event line. -/
def cronFailEntry (e : List Char) : ReportEntry :=
  { job := "Failure detected".toList
    status := .failed
    message := "```\n".toList ++ e ++ "\n```".toList }

/-- The `for e in events` failure loop of `cron_checker.main`. -/
def failureEntries (events : List (List Char)) : List ReportEntry :=
  events.filterMap (fun e =>
    if cronFailCheck e then some (cronFailEntry e) else none)

/-- The whole `results` list built by `cron_checker.main` from the declared
jobs and the filtered events, in append order: the synthetic no-crontab
entry (when `jobs` is empty), then one entry per declared job, then the
failure-detection entries. -/
def cronResults (jobs events : List (List Char)) : List ReportEntry :=
  (if jobs = [] then [noCrontabEntry] else []) ++
    jobs.map (perJobEntry events) ++ failureEntries events

/-- The `job_name = job_match.group(1) if job_match else "Unknown job"`
assignment of `fcron_checker.main`. -/
def fcronJobName (e : List Char) : List Char :=
  match extractCmd e with
  | some n => n
  | none => "Unknown job".toList

/-- The per-event entry of the `else` branch of `fcron_checker.main`. -/
def fcronEntry (e : List Char) : ReportEntry :=
  let jobName := fcronJobName e
  if containsSub ("EXIT STATUS".toList) e then
    match extractExit e with
    | some ds =>
      if ds ≠ "0".toList then
        { job := jobName
          status := .failed
          message := "```\n".toList ++ e ++ "\n```".toList }
      else
        { job := jobName
          status := .success
          message := "Ran successfully.".toList }
    | none =>
      { job := jobName
        status := .success
        message := "Ran successfully.".toList }
  else
    { job := jobName
      status := .success
      message := "Ran successfully.".toList }

/-- The synthetic entry of `fcron_checker.main` for an empty event list. -/
def noActivityEntry : ReportEntry :=
  { job := "No fcron activity".toList
    status := .missing
    message := "No fcron jobs ran in the last interval.".toList }

/-- The `results` list built by `fcron_checker.main`. -/
def fcronResults (events : List (List Char)) : List ReportEntry :=
  if events = [] then [noActivityEntry] else events.map fcronEntry

/-- The severity implicit in the embed-colour choice of
`send_discord_report` (identical in both scripts): red when any entry
failed, else orange when any entry missing, else green. -/
def overallSeverity (rs : List ReportEntry) : Status :=
  if rs.any (fun r => r.status = .failed) then .failed
  else if rs.any (fun r => r.status = .missing) then .missing
  else .success

/-- The embed colour computed by `send_discord_report`. -/
def embedColor (rs : List ReportEntry) : Nat :=
  if rs.any (fun r => r.status = .failed) then 0xE74C3C
  else if rs.any (fun r => r.status = .missing) then 0xE67E22
  else 0x2ECC71

/-- One Discord embed field `{"name": ..., "value": ..., "inline": False}`. -/
structure Field where
  name : List Char
  value : List Char
  inline : Bool
deriving DecidableEq, Repr

/-- The status icon chosen in the `fields` loop of `send_discord_report`. -/
def statusIcon : Status → List Char
  | .success => "✅".toList
  | .missing => "⚠️".toList
  | .failed => "❌".toList

/-- The field built from one report entry: `f"{status_icon} {r['job']}"`
as name, the message as value, non-inline. -/
def entryField (r : ReportEntry) : Field :=
  { name := statusIcon r.status ++ " ".toList ++ r.job
    value := r.message
    inline := false }

/-- The ordered field list of the outgoing embed, as built by the
`for r in results` loop of `send_discord_report`. -/
def buildFields (rs : List ReportEntry) : List Field :=
  rs.map entryField

/-- Numeric value of a captured digit string: the `exitCode` integer of the
specification's `LogEvent` data model. -/
def digitsToNat (ds : List Char) : Nat :=
  ds.foldl (fun n c => 10 * n + (c.toNat - '0'.toNat)) 0

/-! ## Helper lemmas -/

theorem containsSub_eq_false_iff (pat s : List Char) :
    containsSub pat s = false ↔ ¬ pat <:+: s := by
  rw [← containsSub_eq_true_iff]
  simp

theorem containsSub_nil (s : List Char) : containsSub [] s = true := by
  cases s <;> simp [containsSub, List.isPrefixOf]

theorem job_cmd_of_short {s : List Char} (h : (pySplit s).length < 6) :
    job_cmd s = [] := by
  unfold job_cmd
  rw [List.drop_eq_nil_of_le (by omega)]
  rfl

theorem failureEntries_eq_map_filter (events : List (List Char)) :
    failureEntries events = (events.filter cronFailCheck).map cronFailEntry := by
  induction events with
  | nil => rfl
  | cons e es ih =>
    by_cases h : cronFailCheck e = true <;>
      simp [failureEntries, List.filterMap_cons, List.filter_cons, h] <;>
      simpa [failureEntries] using ih

theorem extractExit_contains {e ds : List Char}
    (h : extractExit e = some ds) :
    containsSub ("EXIT STATUS".toList) e = true := by
  induction e with
  | nil => simp [extractExit] at h
  | cons c cs ih =>
    by_cases hp : ("EXIT STATUS (".toList).isPrefixOf (c :: cs) = true
    · have hpre : ("EXIT STATUS".toList).isPrefixOf (c :: cs) = true := by
        rw [List.isPrefixOf_iff_prefix] at hp ⊢
        exact List.IsPrefix.trans (by decide) hp
      simp only [containsSub, hpre, Bool.true_or]
    · rw [extractExit] at h
      rw [Bool.not_eq_true] at hp
      rw [hp] at h
      simp only [Bool.false_eq_true, if_false] at h
      simp only [containsSub, ih h, Bool.or_true]

theorem fcronEntry_status_ne_missing (e : List Char) :
    (fcronEntry e).status ≠ .missing := by
  unfold fcronEntry
  repeat' split
  all_goals simp

theorem fcronEntry_job (e : List Char) :
    (fcronEntry e).job = fcronJobName e := by
  unfold fcronEntry
  repeat' split
  all_goals rfl

/-! ## Claims -/

/-- C1 (cron flavor): every declared job contributes its per-job entry to
the result list; the entry has status Success when the job's command label
is a literal substring of at least one extracted event line, status
Missing when it is a substring of none, and in particular status Missing
whenever the event list is empty. -/
theorem cron_perJob_classification (jobs events : List (List Char))
    (j : List Char) (hj : j ∈ jobs) :
    perJobEntry events j ∈ cronResults jobs events ∧
    ((∃ e ∈ events, job_cmd j <:+: e) →
      (perJobEntry events j).status = .success) ∧
    ((∀ e ∈ events, ¬ job_cmd j <:+: e) →
      (perJobEntry events j).status = .missing) ∧
    (events = [] → (perJobEntry events j).status = .missing) := by
  refine ⟨?_, ?_, ?_, ?_⟩
  · unfold cronResults
    exact List.mem_append.mpr (Or.inl (List.mem_append.mpr
      (Or.inr (List.mem_map_of_mem _ hj))))
  · rintro ⟨e, he, hinf⟩
    have hany : events.any (fun e => containsSub (job_cmd j) e) = true :=
      List.any_eq_true.mpr ⟨e, he, (containsSub_eq_true_iff _ _).mpr hinf⟩
    simp [perJobEntry, hany]
  · intro h
    have hany : events.any (fun e => containsSub (job_cmd j) e) = false :=
      List.any_eq_false.mpr fun e he => by
        simpa [containsSub_eq_true_iff] using h e he
    simp [perJobEntry, hany]
  · rintro rfl
    simp [perJobEntry]

/-- Witness for the C1 theorem: a concrete declared job against an empty
event list is reported Missing. -/
theorem cron_perJob_classification_witness :
    (perJobEntry [] ("1 2 3 4 5 mycmd".toList)).status = .missing :=
  (cron_perJob_classification ["1 2 3 4 5 mycmd".toList] []
      ("1 2 3 4 5 mycmd".toList) (List.mem_singleton.mpr rfl)).2.2.2 rfl

/-- C2 (cron flavor): the failure scan emits exactly one extra entry per
event line passing the textual check (the line contains `EXIT STATUS` and
does not contain `EXIT STATUS (0)`), in event order, each with label
`Failure detected`, status Failed and the verbatim raw line inside the
message; events failing the check contribute no failure entry; and the
failure entries are appended after — never replace — the per-declared-job
entries. -/
theorem cron_failure_detection (jobs events : List (List Char)) :
    failureEntries events = (events.filter cronFailCheck).map cronFailEntry ∧
    (∀ e, cronFailCheck e = true ↔
      (("EXIT STATUS".toList) <:+: e ∧ ¬ ("EXIT STATUS (0)".toList) <:+: e)) ∧
    (∀ e, (cronFailEntry e).job = "Failure detected".toList ∧
      (cronFailEntry e).status = .failed ∧ e <:+: (cronFailEntry e).message) ∧
    cronResults jobs events =
      ((if jobs = [] then [noCrontabEntry] else []) ++
        jobs.map (perJobEntry events)) ++ failureEntries events := by
  refine ⟨failureEntries_eq_map_filter events, ?_, ?_, rfl⟩
  · intro e
    simp [cronFailCheck, containsSub_eq_true_iff, containsSub_eq_false_iff]
  · intro e
    exact ⟨rfl, rfl, ⟨"```\n".toList, "\n```".toList, rfl⟩⟩

/-- Witness for the C2 theorem: a concrete failing event line passes the
check and yields a Failed entry containing the raw line. -/
theorem cron_failure_detection_witness :
    cronFailCheck ("x CMD (job1) x EXIT STATUS (1)".toList) = true ∧
    (cronFailEntry ("x CMD (job1) x EXIT STATUS (1)".toList)).status
      = .failed :=
  ⟨by decide,
    ((cron_failure_detection [] ["x CMD (job1) x EXIT STATUS (1)".toList]).2.2.1
      ("x CMD (job1) x EXIT STATUS (1)".toList)).2.1⟩

/-- C3 counterexample: the event line `fcron: CMD (job1) EXIT STATUS (00)`
carries the exit-code integer 0, which the claim classifies as Success, yet
the script classifies it as Failed because `exit_match.group(1) != "0"`
compares the captured digit string textually. -/
theorem fcron_exit_code_counterexample :
    (extractExit ("fcron: CMD (job1) EXIT STATUS (00)".toList)).map digitsToNat
        = some 0 ∧
    (fcronEntry ("fcron: CMD (job1) EXIT STATUS (00)".toList)).status
        = .failed ∧
    Status.failed ≠ Status.success := by
  refine ⟨by decide, by decide, by decide⟩

/-- C3 amended (fcron flavor): each event yields one entry whose label is
the `CMD (...)` capture when that regex matches and `Unknown job`
otherwise; the status is Failed with the verbatim raw line inside the
message when the captured exit-status digit string differs textually from
`0` (so a captured `00` counts as a failure), and Success with message
`Ran successfully.` when the digit string is exactly `0` or when no
exit-status token matches at all. -/
theorem fcron_event_classification (e : List Char) :
    (fcronEntry e).job = fcronJobName e ∧
    (∀ n, extractCmd e = some n → fcronJobName e = n) ∧
    (extractCmd e = none → fcronJobName e = "Unknown job".toList) ∧
    (∀ ds, extractExit e = some ds → ds ≠ "0".toList →
      (fcronEntry e).status = .failed ∧ e <:+: (fcronEntry e).message) ∧
    (∀ ds, extractExit e = some ds → ds = "0".toList →
      (fcronEntry e).status = .success ∧
        (fcronEntry e).message = "Ran successfully.".toList) ∧
    (extractExit e = none →
      (fcronEntry e).status = .success ∧
        (fcronEntry e).message = "Ran successfully.".toList) := by
  refine ⟨fcronEntry_job e, ?_, ?_, ?_, ?_, ?_⟩
  · intro n hn
    simp [fcronJobName, hn]
  · intro hn
    simp [fcronJobName, hn]
  · intro ds hex hds
    have hc : containsSub ("EXIT STATUS".toList) e = true :=
      extractExit_contains hex
    have hfe : fcronEntry e =
        { job := fcronJobName e
          status := .failed
          message := "```\n".toList ++ e ++ "\n```".toList } := by
      simp only [fcronEntry, hc, eq_self_iff_true, if_true, hex]
      rw [if_pos hds]
    exact ⟨by rw [hfe], "```\n".toList, "\n```".toList, by rw [hfe]⟩
  · intro ds hex hds
    have hc : containsSub ("EXIT STATUS".toList) e = true :=
      extractExit_contains hex
    have hfe : fcronEntry e =
        { job := fcronJobName e
          status := .success
          message := "Ran successfully.".toList } := by
      simp only [fcronEntry, hc, eq_self_iff_true, if_true, hex]
      rw [if_neg (fun h => h hds)]
    exact ⟨by rw [hfe], by rw [hfe]⟩
  · intro hex
    by_cases hc : containsSub ("EXIT STATUS".toList) e = true
    · have hfe : fcronEntry e =
          { job := fcronJobName e
            status := .success
            message := "Ran successfully.".toList } := by
        simp only [fcronEntry, hc, eq_self_iff_true, if_true, hex]
      exact ⟨by rw [hfe], by rw [hfe]⟩
    · rw [Bool.not_eq_true] at hc
      have hfe : fcronEntry e =
          { job := fcronJobName e
            status := .success
            message := "Ran successfully.".toList } := by
        simp only [fcronEntry, hc, Bool.false_eq_true, if_false]
      exact ⟨by rw [hfe], by rw [hfe]⟩

/-- Witness for the C3 amended theorem: a concrete event with exit status 7
is classified Failed. -/
theorem fcron_event_classification_witness :
    (fcronEntry ("fcron: CMD (j) EXIT STATUS (7)".toList)).status = .failed :=
  ((fcron_event_classification
      ("fcron: CMD (j) EXIT STATUS (7)".toList)).2.2.2.1
    ("7".toList) (by decide) (by decide)).1

/-- C4 (Report Builder, both flavors): the severity encoded by the embed
colour decision is Failed iff at least one entry failed; otherwise it is
Missing iff at least one entry is missing; otherwise it is Success — in
particular the empty entry list yields Success — and it is invariant under
any permutation of the entries. -/
theorem overall_severity_characterization (rs : List ReportEntry) :
    (overallSeverity rs = .failed ↔ ∃ r ∈ rs, r.status = .failed) ∧
    ((¬ ∃ r ∈ rs, r.status = .failed) →
      (overallSeverity rs = .missing ↔ ∃ r ∈ rs, r.status = .missing)) ∧
    ((¬ ∃ r ∈ rs, r.status = .failed) → (¬ ∃ r ∈ rs, r.status = .missing) →
      overallSeverity rs = .success) ∧
    overallSeverity ([] : List ReportEntry) = .success ∧
    (∀ rs' : List ReportEntry, rs.Perm rs' →
      overallSeverity rs = overallSeverity rs') := by
  have hany : ∀ (l : List ReportEntry) (s : Status),
      l.any (fun r => r.status = s) = true ↔ ∃ r ∈ l, r.status = s := by
    intro l s
    simp [List.any_eq_true]
  refine ⟨?_, ?_, ?_, rfl, ?_⟩
  · by_cases hf : rs.any (fun r => r.status = Status.failed) = true
    · simp [overallSeverity, hf, (hany rs .failed).mp hf]
    · rw [Bool.not_eq_true] at hf
      have hne : ¬ ∃ r ∈ rs, r.status = .failed := by
        rw [← hany rs .failed, hf]
        simp
      refine iff_of_false ?_ hne
      unfold overallSeverity
      rw [hf]
      by_cases hm : rs.any (fun r => r.status = Status.missing) = true
      · rw [hm]
        simp
      · rw [Bool.not_eq_true] at hm
        rw [hm]
        simp
  · intro hf
    have hf' : rs.any (fun r => r.status = Status.failed) = false := by
      rw [← Bool.not_eq_true, hany rs .failed]
      exact hf
    by_cases hm : rs.any (fun r => r.status = Status.missing) = true
    · simp [overallSeverity, hf', hm, (hany rs .missing).mp hm]
    · rw [Bool.not_eq_true] at hm
      have : ¬ ∃ r ∈ rs, r.status = .missing := by
        rw [← hany rs .missing, hm]
        simp
      simp [overallSeverity, hf', hm, this]
  · intro hf hm
    have hf' : rs.any (fun r => r.status = Status.failed) = false := by
      rw [← Bool.not_eq_true, hany rs .failed]
      exact hf
    have hm' : rs.any (fun r => r.status = Status.missing) = false := by
      rw [← Bool.not_eq_true, hany rs .missing]
      exact hm
    simp [overallSeverity, hf', hm']
  · intro rs' hp
    have h : ∀ s : Status, rs.any (fun r => r.status = s)
        = rs'.any (fun r => r.status = s) := by
      intro s
      rw [Bool.eq_iff_iff, hany rs s, hany rs' s]
      constructor
      · rintro ⟨r, hr, hrs⟩
        exact ⟨r, hp.mem_iff.mp hr, hrs⟩
      · rintro ⟨r, hr, hrs⟩
        exact ⟨r, hp.mem_iff.mpr hr, hrs⟩
    unfold overallSeverity
    rw [h .failed, h .missing]

/-- Witness for the C4 theorem: a single Success entry yields overall
severity Success. -/
theorem overall_severity_characterization_witness :
    overallSeverity [⟨"j".toList, .success, "m".toList⟩] = .success :=
  (overall_severity_characterization
      [⟨"j".toList, .success, "m".toList⟩]).2.2.1
    (by decide) (by decide)

/-- C5 (cron flavor): with an empty declared-job list the result list
starts with the single synthetic `No user crontab` / Missing entry and the
run still produces a report; with an empty event list as well, it is the
only entry and the overall severity is Missing. -/
theorem cron_no_crontab (events : List (List Char)) :
    cronResults [] events = noCrontabEntry :: failureEntries events ∧
    noCrontabEntry.job = "No user crontab".toList ∧
    noCrontabEntry.status = .missing ∧
    (events = [] →
      cronResults [] events = [noCrontabEntry] ∧
      overallSeverity (cronResults [] events) = .missing) := by
  refine ⟨by simp [cronResults], rfl, rfl, ?_⟩
  rintro rfl
  exact ⟨by decide, by decide⟩

/-- Witness for the C5 theorem at the empty event list. -/
theorem cron_no_crontab_witness :
    cronResults [] [] = [noCrontabEntry] ∧
    overallSeverity (cronResults [] []) = .missing :=
  (cron_no_crontab []).2.2.2 rfl

/-- C6 (fcron flavor): the empty event sequence yields exactly the single
synthetic `No fcron activity` / Missing entry, and for every non-empty
event sequence the results are the per-event entries only — the synthetic
entry never appears among them. -/
theorem fcron_no_activity (events : List (List Char)) :
    fcronResults [] = [noActivityEntry] ∧
    noActivityEntry.job = "No fcron activity".toList ∧
    noActivityEntry.status = .missing ∧
    (events ≠ [] →
      fcronResults events = events.map fcronEntry ∧
      noActivityEntry ∉ fcronResults events) := by
  refine ⟨rfl, rfl, rfl, ?_⟩
  intro hne
  have heq : fcronResults events = events.map fcronEntry := by
    unfold fcronResults
    rw [if_neg hne]
  refine ⟨heq, ?_⟩
  rw [heq]
  intro hmem
  rcases List.mem_map.mp hmem with ⟨e, _, hfe⟩
  exact fcronEntry_status_ne_missing e (by rw [hfe]; rfl)

/-- Witness for the C6 theorem at a concrete one-event list. -/
theorem fcron_no_activity_witness :
    fcronResults ["fcron x".toList] = ["fcron x".toList].map fcronEntry ∧
    noActivityEntry ∉ fcronResults ["fcron x".toList] :=
  (fcron_no_activity ["fcron x".toList]).2.2.2 (by simp)

/-- C7 (structure invariant): the cron result list is exactly the
synthetic no-crontab entry (present only when the job list is empty),
followed by one entry per declared job in declared order, followed by the
failure entries in event order; the fcron result list for a non-empty
event sequence is exactly one entry per event in event order; and the
ordered field list of the outgoing notification is the entry list mapped
entry-by-entry, preserving insertion order. -/
theorem report_entry_structure (jobs events : List (List Char)) :
    cronResults jobs events =
      (if jobs = [] then [noCrontabEntry] else []) ++
        jobs.map (perJobEntry events) ++ failureEntries events ∧
    failureEntries events = (events.filter cronFailCheck).map cronFailEntry ∧
    (jobs ≠ [] →
      (cronResults jobs events).length =
        jobs.length + (events.filter cronFailCheck).length) ∧
    (events ≠ [] →
      fcronResults events = events.map fcronEntry ∧
      (fcronResults events).length = events.length) ∧
    buildFields (cronResults jobs events) =
      (cronResults jobs events).map entryField ∧
    buildFields (fcronResults events) = (fcronResults events).map entryField := by
  refine ⟨rfl, failureEntries_eq_map_filter events, ?_, ?_, rfl, rfl⟩
  · intro hne
    unfold cronResults
    rw [if_neg hne, failureEntries_eq_map_filter]
    simp
  · intro hne
    have heq : fcronResults events = events.map fcronEntry := by
      unfold fcronResults
      rw [if_neg hne]
    rw [heq]
    simp

/-- Witness for the C7 theorem at a concrete job and failing event line. -/
theorem report_entry_structure_witness :
    (cronResults ["1 2 3 4 5 c".toList] ["cron EXIT STATUS (1)".toList]).length
      = ["1 2 3 4 5 c".toList].length +
          (["cron EXIT STATUS (1)".toList].filter cronFailCheck).length :=
  (report_entry_structure ["1 2 3 4 5 c".toList]
      ["cron EXIT STATUS (1)".toList]).2.2.1 (by simp)

/-- C8 (Event Extractor): both extractors return exactly the subsequence
of input lines satisfying the flavor's relevance predicate, in original
order (cron flavor: the line contains `CRON`, `cron` or `fcron` literally;
fcron flavor: the line contains `fcron` case-insensitively), with no other
modification; the empty input yields the empty output. -/
theorem extractor_filters (logs : List (List Char)) :
    parse_logs logs = logs.filter cronRelevant ∧
    (∀ l, cronRelevant l = true ↔
      (("CRON".toList) <:+: l ∨ ("cron".toList) <:+: l ∨
        ("fcron".toList) <:+: l)) ∧
    parse_fcron_logs logs = logs.filter fcronRelevant ∧
    (∀ l, fcronRelevant l = true ↔
      ("fcron".toList) <:+: (l.map Char.toLower)) ∧
    List.Sublist (parse_logs logs) logs ∧
    List.Sublist (parse_fcron_logs logs) logs ∧
    parse_logs ([] : List (List Char)) = [] ∧
    parse_fcron_logs ([] : List (List Char)) = [] := by
  refine ⟨rfl, ?_, rfl, ?_, List.filter_sublist logs, List.filter_sublist logs,
    rfl, rfl⟩
  · intro l
    simp [cronRelevant, containsSub_eq_true_iff, or_assoc]
  · intro l
    simp [fcronRelevant, containsSub_eq_true_iff]

/-- Witness for the C8 theorem: a mixed-case line is relevant for the
fcron extractor. -/
theorem extractor_filters_witness :
    ("fcron".toList) <:+: ("my FCRON line".toList.map Char.toLower) :=
  ((extractor_filters ["my FCRON line".toList]).2.2.2.1
    ("my FCRON line".toList)).mp (by decide)

/-- C9 (cron flavor): command-label extraction is a total function of the
declared line: the label is the whitespace-separated tokens after the
first five joined by single spaces, and a line with fewer than six tokens
yields the empty label. -/
theorem job_label_total (s : List Char) :
    job_cmd s = List.intercalate (" ".toList) ((pySplit s).drop 5) ∧
    ((pySplit s).length < 6 → job_cmd s = []) :=
  ⟨rfl, fun h => job_cmd_of_short h⟩

/-- Witness for the C9 theorem: a five-token schedule line has the empty
label. -/
theorem job_label_total_witness : job_cmd ("* * * * *".toList) = [] :=
  (job_label_total ("* * * * *".toList)).2 (by decide)

/-- C10 (implicit, cron flavor): a declared line with fewer than six
whitespace-separated tokens has the empty command label, which is a
substring of every line; hence with any non-empty event list its entry has
status Success, and only with an empty event list is it Missing. -/
theorem short_job_always_success (job : List Char)
    (events : List (List Char)) (h : (pySplit job).length < 6) :
    job_cmd job = [] ∧
    (∀ e, containsSub (job_cmd job) e = true) ∧
    (events ≠ [] → (perJobEntry events job).status = .success) ∧
    (events = [] → (perJobEntry events job).status = .missing) := by
  have hcmd : job_cmd job = [] := job_cmd_of_short h
  refine ⟨hcmd, ?_, ?_, ?_⟩
  · intro e
    rw [hcmd]
    exact containsSub_nil e
  · intro hne
    obtain ⟨e, es, rfl⟩ := List.exists_cons_of_ne_nil hne
    have hany : ((e :: es).any (fun x => containsSub (job_cmd job) x))
        = true := by
      simp [List.any_cons, hcmd, containsSub_nil]
    simp [perJobEntry, hany]
  · rintro rfl
    simp [perJobEntry]

/-- Witness for the C10 theorem: a three-token declared line is Success
against a non-empty event list. -/
theorem short_job_always_success_witness :
    (perJobEntry ["anything".toList] ("1 2 3".toList)).status = .success :=
  (short_job_always_success ("1 2 3".toList) ["anything".toList]
      (by decide)).2.2.1 (by simp)

end CronCheckers
